import Mathlib

/-!
Verification of the go-jitjson lazy JSON cell library.

This development shallowly embeds the Go sources of the repository:

* `JitJSON[T]` (jitjson.go, unnamed/part_021): a generic cell holding an
  optional raw JSON encoding (`data`) and an optional decoded value (`val`),
  with deferred `Marshal`/`Unmarshal`, mutators `SetValue`/`SetBytes`, the
  `UnmarshalJSON` decode hook and the `Read` io.Reader adapter.
* `AnyJitJSON` (any_jitjson.go): the dynamic, type-erased variant that
  classifies a raw JSON encoding into one of six shapes via regular
  expressions and exposes `Type`, `IsNull` and the `AsBool`/`AsNumber`/
  `AsString`/`AsArray`/`AsObject` accessors.
* the older `AnyJitJSON` variant of jitany.go, whose `UnmarshalJSON`
  eagerly parses container inputs with the encoding/json parser.

Go byte slices are modelled as `Option (List Char)` (`none` is the nil
slice), errors as `Option String`, and the external encoding/json
encoder/decoder pair as an explicit `Codec` record.  Marshal/Unmarshal are
instrumented with an invocation counter for the underlying codec so that
"the encoder is not invoked a second time" style properties are statable.
-/

/-- Byte strings of the Go sources, modelled as lists of characters. -/
abbrev Bytes := List Char

namespace JitJSONModel

/-- The external encoder/decoder pair supplied by encoding/json.  `zero`
models Go's zero value `var val T`.  The decoder is modelled as atomic:
on failure it leaves the destination at the zero value. -/
structure Codec (T : Type) where
  encode : T → Except String Bytes
  decode : Bytes → Except String T
  zero : T

/-- The cell `JitJSON[T]` of jitjson.go: `data []byte` and `val *T`,
with `none` playing the role of Go nil. -/
structure JitJSON (T : Type) where
  data : Option Bytes
  val : Option T
deriving DecidableEq, Repr

/-- `New` of jitjson.go: create a cell from a value. -/
def New {T : Type} (v : T) : JitJSON T := ⟨none, some v⟩

/-- `NewFromBytes` of jitjson.go: create a cell from (possibly nil) JSON bytes. -/
def NewFromBytes {T : Type} (d : Option Bytes) : JitJSON T := ⟨d, none⟩

/-- `SetValue` (historically `Set`) of jitjson.go: `jit.val = &val; jit.data = nil`. -/
def SetValue {T : Type} (_jit : JitJSON T) (v : T) : JitJSON T := ⟨none, some v⟩

/-- `SetBytes` of unnamed/part_021: `jit.val = nil; jit.data = data`. -/
def SetBytes {T : Type} (_jit : JitJSON T) (d : Option Bytes) : JitJSON T := ⟨d, none⟩

/-- Result of one `Marshal` call: returned bytes, returned error, the cell
after the call, and how often the underlying encoder was invoked. -/
structure MarshalResult (T : Type) where
  bytes : Option Bytes
  err : Option String
  cell : JitJSON T
  calls : Nat
deriving DecidableEq, Repr

/-- Result of one `Unmarshal` call: returned value, returned error, the cell
after the call, and how often the underlying decoder was invoked. -/
structure UnmarshalResult (T : Type) where
  value : T
  err : Option String
  cell : JitJSON T
  calls : Nat
deriving DecidableEq, Repr

/-- `Marshal` of jitjson.go:
if `jit.data != nil` return it; if `jit.val == nil` return `nil, nil`;
otherwise `jit.data, err = json.Marshal(jit.val)`, returning the error
(with `jit.data` left nil) on failure. -/
def Marshal {T : Type} (c : Codec T) (jit : JitJSON T) : MarshalResult T :=
  match jit.data with
  | some d => ⟨some d, none, jit, 0⟩
  | none =>
    match jit.val with
    | none => ⟨none, none, jit, 0⟩
    | some v =>
      match c.encode v with
      | .ok d => ⟨some d, none, { jit with data := some d }, 1⟩
      | .error e => ⟨none, some e, { jit with data := none }, 1⟩

/-- `Unmarshal` of jitjson.go:
if `jit.val != nil` return `*jit.val`; if `jit.data == nil` return the zero
value; otherwise set `jit.val = &val` and run `json.Unmarshal(jit.data, jit.val)`.
Note that `jit.val` is assigned *before* the decode, so a failed decode
leaves `jit.val` pointing at the (zero-valued) destination. -/
def Unmarshal {T : Type} (c : Codec T) (jit : JitJSON T) : UnmarshalResult T :=
  match jit.val with
  | some v => ⟨v, none, jit, 0⟩
  | none =>
    match jit.data with
    | none => ⟨c.zero, none, jit, 0⟩
    | some d =>
      match c.decode d with
      | .ok v => ⟨v, none, { jit with val := some v }, 1⟩
      | .error e => ⟨c.zero, some e, { jit with val := some c.zero }, 1⟩

/-- `UnmarshalJSON` of jitjson.go, the decode hook driven by the host
framework: `jit.val = nil; jit.data = data; return nil`. -/
def UnmarshalJSON {T : Type} (_jit : JitJSON T) (d : Option Bytes) :
    Option String × JitJSON T := (none, ⟨d, none⟩)

/-- `MarshalJSON` of jitjson.go, the encode hook: delegates to `Marshal`. -/
def MarshalJSON {T : Type} (c : Codec T) (jit : JitJSON T) : MarshalResult T :=
  Marshal c jit

/-- Length of a possibly nil byte slice. -/
def bytesLen : Option Bytes → Nat
  | none => 0
  | some l => l.length

/-- `Read` of jitjson.go (value receiver, so cell mutations are dropped):
`data, err := jit.Marshal(); if err != nil { return 0, nil }; return copy(p, data), nil`.
`p` is the capacity of the destination buffer; `copy` transfers
`min (len p) (len data)` bytes.  Note the error branch returns a nil error. -/
def Read {T : Type} (c : Codec T) (jit : JitJSON T) (p : Nat) : Nat × Option String :=
  let m := Marshal c jit
  match m.err with
  | some _ => (0, none)
  | none => (min p (bytesLen m.bytes), none)

end JitJSONModel

namespace JitJSONModel

/-- Whitespace accepted by the encoding/json scanner: space, tab, CR, LF. -/
def jsonWsChar (c : Char) : Bool := c = ' ' || c = '\t' || c = '\r' || c = '\n'

/-- Drop leading JSON whitespace. -/
def skipJsonWs (s : Bytes) : Bytes := s.dropWhile jsonWsChar

/-- Strip JSON whitespace from both ends. -/
def jsonTrim (s : Bytes) : Bytes :=
  ((s.dropWhile jsonWsChar).reverse.dropWhile jsonWsChar).reverse

/-- Decoder error reported by encoding/json on a type mismatch for bool. -/
def boolDecodeErr : String := "json: cannot unmarshal value into Go value of type bool"

/-- Model of the external encoding/json codec at type bool. -/
def goBoolCodec : Codec Bool where
  encode b := .ok (if b then "true".toList else "false".toList)
  decode bs :=
    let t := jsonTrim bs
    if t = "true".toList then .ok true
    else if t = "false".toList then .ok false
    else .error boolDecodeErr
  zero := false

/-- Numeric value of a nonempty all-digit string. -/
def digitsVal (s : Bytes) : Nat := s.foldl (fun a c => a * 10 + (c.toNat - 48)) 0

/-- Parse a Go-style integer literal (optional minus, digits). -/
def intLitVal : Bytes → Option Int
  | '-' :: r => if r ≠ [] ∧ r.all Char.isDigit then some (-(digitsVal r : Int)) else none
  | s => if s ≠ [] ∧ s.all Char.isDigit then some (digitsVal s : Int) else none

/-- Decoder error reported by encoding/json on a type mismatch for *int. -/
def intDecodeErr : String := "json: cannot unmarshal value into Go value of type int"

/-- Model of the external encoding/json codec at type `*int`: `none` is the
nil pointer, which encodes to the literal `null`; decoding `null` yields the
nil pointer. -/
def ptrIntCodec : Codec (Option Int) where
  encode
    | none => .ok ("null".toList)
    | some n => .ok ((toString n).toList)
  decode bs :=
    let t := jsonTrim bs
    if t = "null".toList then .ok none
    else
      match intLitVal t with
      | some n => .ok (some n)
      | none => .error intDecodeErr
  zero := none

/-- Model of the external encoding/json codec at type `int`.  Decoding the
literal `null` into a non-pointer leaves the destination at its zero value
with no error, as encoding/json does. -/
def intCodec : Codec Int where
  encode n := .ok ((toString n).toList)
  decode bs :=
    let t := jsonTrim bs
    if t = "null".toList then .ok 0
    else
      match intLitVal t with
      | some n => .ok n
      | none => .error intDecodeErr
  zero := 0

/-- Model of the external codec at an element type encoding/json rejects
(such as `chan int`): every encode and decode fails. -/
def chanCodec : Codec Unit where
  encode _ := .error "json: unsupported type: chan int"
  decode _ := .error "json: cannot unmarshal into chan int"
  zero := ()

end JitJSONModel

namespace JitJSONModel

/-- C1 (counterexample): contrary to the claim, a failed decode does not
leave the cell's cached state as it was: on the cell built from the invalid
bytes `xyz`, `Unmarshal` fails, but the cell afterwards differs from the
cell before (the zero value has been cached), and a second `Unmarshal`
returns no error and never re-invokes the decoder. -/
theorem c1_counterexample :
    (Unmarshal goBoolCodec (NewFromBytes (some ("xyz".toList)) : JitJSON Bool)).err.isSome = true ∧
    (Unmarshal goBoolCodec (NewFromBytes (some ("xyz".toList)) : JitJSON Bool)).cell ≠
      (NewFromBytes (some ("xyz".toList)) : JitJSON Bool) ∧
    (Unmarshal goBoolCodec
      (Unmarshal goBoolCodec (NewFromBytes (some ("xyz".toList)) : JitJSON Bool)).cell).err = none ∧
    (Unmarshal goBoolCodec
      (Unmarshal goBoolCodec (NewFromBytes (some ("xyz".toList)) : JitJSON Bool)).cell).calls = 0 := by
  decide

/-- C1 (amended): on a cell holding JSON data but no cached value whose
decode fails, `Unmarshal` returns the zero value of `T` and the decoder's
error, but it caches the zero value into the cell (the pointer is assigned
before the decode), so a subsequent `Unmarshal` returns the zero value with
no error and without re-invoking the decoder. -/
theorem c1_unmarshal_failure_poisons_cache {T : Type} (c : Codec T) (jit : JitJSON T)
    (d : Bytes) (e : String)
    (hv : jit.val = none) (hd : jit.data = some d) (hdec : c.decode d = .error e) :
    Unmarshal c jit = ⟨c.zero, some e, ⟨some d, some c.zero⟩, 1⟩ ∧
    Unmarshal c (Unmarshal c jit).cell = ⟨c.zero, none, ⟨some d, some c.zero⟩, 0⟩ := by
  obtain ⟨data, val⟩ := jit
  simp only at hv hd
  subst hv hd
  simp [Unmarshal, hdec]

/-- C1 (witness): the amended statement at the concrete invalid input `xyz`
with the bool codec. -/
theorem c1_witness :
    Unmarshal goBoolCodec (NewFromBytes (some ("xyz".toList)) : JitJSON Bool) =
      ⟨false, some boolDecodeErr, ⟨some ("xyz".toList), some false⟩, 1⟩ ∧
    Unmarshal goBoolCodec
        (Unmarshal goBoolCodec (NewFromBytes (some ("xyz".toList)) : JitJSON Bool)).cell =
      ⟨false, none, ⟨some ("xyz".toList), some false⟩, 0⟩ :=
  c1_unmarshal_failure_poisons_cache goBoolCodec _ ("xyz".toList) boolDecodeErr rfl rfl rfl

/-- C2: on any cell whose `Marshal` succeeds, a second `Marshal` returns the
identical bytes with no error and does not invoke the encoder; on any cell
whose `Unmarshal` succeeds, a second `Unmarshal` returns the same value with
no error and does not invoke the decoder. -/
theorem c2_second_calls_are_cache_reads {T : Type} (c : Codec T) (jit : JitJSON T)
    (hm : (Marshal c jit).err = none) (hu : (Unmarshal c jit).err = none) :
    ((Marshal c (Marshal c jit).cell).bytes = (Marshal c jit).bytes ∧
     (Marshal c (Marshal c jit).cell).err = none ∧
     (Marshal c (Marshal c jit).cell).calls = 0) ∧
    ((Unmarshal c (Unmarshal c jit).cell).value = (Unmarshal c jit).value ∧
     (Unmarshal c (Unmarshal c jit).cell).err = none ∧
     (Unmarshal c (Unmarshal c jit).cell).calls = 0) := by
  obtain ⟨data, val⟩ := jit
  constructor
  · cases data with
    | some d => simp [Marshal]
    | none =>
      cases val with
      | none => simp [Marshal]
      | some v =>
        cases he : c.encode v with
        | ok d => simp [Marshal, he]
        | error e => simp [Marshal, he] at hm
  · cases val with
    | some v => simp [Unmarshal]
    | none =>
      cases data with
      | none => simp [Unmarshal]
      | some d =>
        cases hde : c.decode d with
        | ok v => simp [Unmarshal, hde]
        | error e => simp [Unmarshal, hde] at hu

/-- C2 (witness): the cached-read property at a concrete cell holding the
value `true` under the bool codec. -/
theorem c2_witness :
    ((Marshal goBoolCodec (Marshal goBoolCodec (New true)).cell).bytes =
       (Marshal goBoolCodec (New true)).bytes ∧
     (Marshal goBoolCodec (Marshal goBoolCodec (New true)).cell).err = none ∧
     (Marshal goBoolCodec (Marshal goBoolCodec (New true)).cell).calls = 0) ∧
    ((Unmarshal goBoolCodec (Unmarshal goBoolCodec (New true)).cell).value =
       (Unmarshal goBoolCodec (New true)).value ∧
     (Unmarshal goBoolCodec (Unmarshal goBoolCodec (New true)).cell).err = none ∧
     (Unmarshal goBoolCodec (Unmarshal goBoolCodec (New true)).cell).calls = 0) :=
  c2_second_calls_are_cache_reads goBoolCodec (New true) (by decide) (by decide)

/-- C3: `SetValue` overwrites the cached value and clears the cached bytes,
`SetBytes` overwrites the cached bytes and clears the cached value; after
`SetValue` the next `Marshal` invokes the encoder exactly once (and, the
encode succeeding, later calls not at all and return the same bytes), and
after `SetBytes` the next `Unmarshal` invokes the decoder exactly once and
later calls not at all. -/
theorem c3_set_invalidates_and_recomputes_once {T : Type} (c : Codec T)
    (jit jit' : JitJSON T) (v : T) (b bs : Bytes) (he : c.encode v = .ok bs) :
    (SetValue jit v).val = some v ∧ (SetValue jit v).data = none ∧
    (Marshal c (SetValue jit v)).calls = 1 ∧
    (Marshal c (SetValue jit v)).bytes = some bs ∧
    (Marshal c (Marshal c (SetValue jit v)).cell).calls = 0 ∧
    (Marshal c (Marshal c (SetValue jit v)).cell).bytes = some bs ∧
    (SetBytes jit' (some b)).data = some b ∧ (SetBytes jit' (some b)).val = none ∧
    (Unmarshal c (SetBytes jit' (some b))).calls = 1 ∧
    (Unmarshal c (Unmarshal c (SetBytes jit' (some b))).cell).calls = 0 := by
  refine ⟨rfl, rfl, ?_, ?_, ?_, ?_, rfl, rfl, ?_, ?_⟩
  · simp [SetValue, Marshal, he]
  · simp [SetValue, Marshal, he]
  · simp [SetValue, Marshal, he]
  · simp [SetValue, Marshal, he]
  · cases hde : c.decode b with
    | ok w => simp [SetBytes, Unmarshal, hde]
    | error e => simp [SetBytes, Unmarshal, hde]
  · cases hde : c.decode b with
    | ok w => simp [SetBytes, Unmarshal, hde]
    | error e => simp [SetBytes, Unmarshal, hde]

/-- C3 (witness): the invalidate-and-recompute-once property at concrete
cells under the bool codec. -/
theorem c3_witness :
    (SetValue (New false) true).val = some true ∧ (SetValue (New false) true).data = none ∧
    (Marshal goBoolCodec (SetValue (New false) true)).calls = 1 ∧
    (Marshal goBoolCodec (SetValue (New false) true)).bytes = some ("true".toList) ∧
    (Marshal goBoolCodec (Marshal goBoolCodec (SetValue (New false) true)).cell).calls = 0 ∧
    (Marshal goBoolCodec (Marshal goBoolCodec (SetValue (New false) true)).cell).bytes =
      some ("true".toList) ∧
    (SetBytes (New false) (some ("false".toList))).data = some ("false".toList) ∧
    (SetBytes (New false) (some ("false".toList))).val = none ∧
    (Unmarshal goBoolCodec (SetBytes (New false) (some ("false".toList)))).calls = 1 ∧
    (Unmarshal goBoolCodec
      (Unmarshal goBoolCodec (SetBytes (New false) (some ("false".toList)))).cell).calls = 0 :=
  c3_set_invalidates_and_recomputes_once goBoolCodec (New false) (New false) true
    ("false".toList) ("true".toList) rfl

/-- C4: the decode hook `UnmarshalJSON` returns a nil error and has exactly
the effect of `SetBytes`, and a parse failure in the stored bytes is
surfaced by the next explicit `Unmarshal` call. -/
theorem c4_decode_hook_equals_setbytes {T : Type} (c : Codec T) (jit : JitJSON T)
    (d : Option Bytes) (b : Bytes) (e : String) (hdec : c.decode b = .error e) :
    UnmarshalJSON jit d = (none, SetBytes jit d) ∧
    (Unmarshal c (UnmarshalJSON jit (some b)).2).err = some e := by
  refine ⟨rfl, ?_⟩
  simp [UnmarshalJSON, Unmarshal, hdec]

/-- C4 (witness): the decode hook at the concrete invalid input `xyz` under
the bool codec. -/
theorem c4_witness :
    UnmarshalJSON (New true) (some ("xyz".toList)) = (none, SetBytes (New true) (some ("xyz".toList))) ∧
    (Unmarshal goBoolCodec (UnmarshalJSON (New true) (some ("xyz".toList))).2).err =
      some boolDecodeErr :=
  c4_decode_hook_equals_setbytes goBoolCodec (New true) (some ("xyz".toList)) ("xyz".toList)
    boolDecodeErr rfl

/-- C5: for a value `v` the codec round-trips, marshaling the cell built
from `v` yields those bytes with no error, and unmarshaling a fresh cell
built from those bytes reconstructs `v` with no error. -/
theorem c5_roundtrip {T : Type} (c : Codec T) (v : T) (bs : Bytes)
    (he : c.encode v = .ok bs) (hd : c.decode bs = .ok v) :
    (Marshal c (New v)).bytes = some bs ∧ (Marshal c (New v)).err = none ∧
    (Unmarshal c (NewFromBytes (some bs) : JitJSON T)).value = v ∧
    (Unmarshal c (NewFromBytes (some bs) : JitJSON T)).err = none := by
  refine ⟨?_, ?_, ?_, ?_⟩ <;>
    simp [New, NewFromBytes, Marshal, Unmarshal, he, hd]

/-- C5 (witness): the round trip at the concrete value `true` under the
bool codec. -/
theorem c5_witness :
    (Marshal goBoolCodec (New true)).bytes = some ("true".toList) ∧
    (Marshal goBoolCodec (New true)).err = none ∧
    (Unmarshal goBoolCodec (NewFromBytes (some ("true".toList)) : JitJSON Bool)).value = true ∧
    (Unmarshal goBoolCodec (NewFromBytes (some ("true".toList)) : JitJSON Bool)).err = none :=
  c5_roundtrip goBoolCodec true ("true".toList) rfl rfl

/-- C8 (counterexample): contrary to the claim, an empty cell of the
pointer-like type `*int` does not marshal to the literal `null`: its
`Marshal` returns nil bytes (and no error). -/
theorem c8_counterexample :
    (Marshal ptrIntCodec (⟨none, none⟩ : JitJSON (Option Int))).bytes = none ∧
    (Marshal ptrIntCodec (⟨none, none⟩ : JitJSON (Option Int))).err = none ∧
    (Marshal ptrIntCodec (⟨none, none⟩ : JitJSON (Option Int))).bytes ≠ some ("null".toList) := by
  decide

/-- C8 (amended): a cell of type `*int` constructed from the nil value
marshals to the literal `null` and unmarshals back to nil, and decoding the
literal `null` into a fresh `*int` cell yields nil; an empty cell, of any
element type whatsoever, marshals to nil bytes and unmarshals to the zero
value, in all cases with no error and without invoking the codec. -/
theorem c8_amended_nil_pointer_vs_empty :
    ((Marshal ptrIntCodec (New (none : Option Int))).bytes = some ("null".toList) ∧
     (Marshal ptrIntCodec (New (none : Option Int))).err = none ∧
     (Unmarshal ptrIntCodec (New (none : Option Int))).value = none ∧
     (Unmarshal ptrIntCodec (NewFromBytes (some ("null".toList)) : JitJSON (Option Int))).value = none ∧
     (Unmarshal ptrIntCodec (NewFromBytes (some ("null".toList)) : JitJSON (Option Int))).err = none ∧
     (Unmarshal intCodec (⟨none, none⟩ : JitJSON Int)).value = 0) ∧
    (∀ (T : Type) (c : Codec T),
      Marshal c (⟨none, none⟩ : JitJSON T) = ⟨none, none, ⟨none, none⟩, 0⟩ ∧
      Unmarshal c (⟨none, none⟩ : JitJSON T) = ⟨c.zero, none, ⟨none, none⟩, 0⟩) := by
  refine ⟨by decide, fun T c => ⟨rfl, rfl⟩⟩

/-- C9: when the underlying `Marshal` fails, the `Read` adapter reports
success: it returns `0` bytes read and a nil error instead of surfacing the
encoder's error (the code's error branch reads `return 0, nil`). -/
theorem c9_read_swallows_marshal_error :
    (Marshal chanCodec (New ())).err = some "json: unsupported type: chan int" ∧
    Read chanCodec (New ()) 16 = (0, none) := by
  decide

end JitJSONModel

namespace JitJSONModel

/-! ### The regular expressions of any_jitjson.go / jitany.go

Each Go pattern has the form `^\s*CORE\s*$`.  Since no core starts or ends
with a whitespace character, a full match is equivalent to stripping the
`\s` padding from both ends and matching the core exactly; the matchers
below implement exactly that.  Go's regexp `\s` class is `[\t\n\f\r ]`. -/

/-- The Go regexp whitespace class `\s`: tab, newline, form feed, CR, space. -/
def reWsChar (c : Char) : Bool :=
  c = ' ' || c = '\t' || c = '\n' || c = '\r' || c = '\x0c'

/-- Strip regexp `\s` padding from both ends. -/
def reTrim (s : Bytes) : Bytes :=
  ((s.dropWhile reWsChar).reverse.dropWhile reWsChar).reverse

/-- `nullRegex`: `^\s*null\s*$`. -/
def nullMatch (s : Bytes) : Bool := reTrim s = "null".toList

/-- `boolRegex`: `^\s*(true|false)\s*$`. -/
def boolMatch (s : Bytes) : Bool :=
  reTrim s = "true".toList || reTrim s = "false".toList

/-- Exponent digits with optional sign: `[+-]?\d+` against the whole rest. -/
def signDigits : Bytes → Bool
  | '+' :: r => r ≠ [] && r.all Char.isDigit
  | '-' :: r => r ≠ [] && r.all Char.isDigit
  | r => r ≠ [] && r.all Char.isDigit

/-- Optional exponent `([eE][+-]?\d+)?` against the whole rest. -/
def expPart : Bytes → Bool
  | [] => true
  | 'e' :: r => signDigits r
  | 'E' :: r => signDigits r
  | _ => false

/-- Optional fraction then optional exponent: `(\.\d+)?([eE][+-]?\d+)?`
against the whole rest.  The fraction's `\d+` is greedy; since neither
alternative after it can start with a digit, the greedy scan is exact. -/
def fracExpPart : Bytes → Bool
  | '.' :: r => (r.takeWhile Char.isDigit) ≠ [] && expPart (r.dropWhile Char.isDigit)
  | s => expPart s

/-- The unsigned part `(0|[1-9]\d*)(\.\d+)?([eE][+-]?\d+)?`. -/
def numCorePos : Bytes → Bool
  | '0' :: r => fracExpPart r
  | c :: r => c.isDigit && c ≠ '0' && fracExpPart (r.dropWhile Char.isDigit)
  | [] => false

/-- The full number core `-?(0|[1-9]\d*)(\.\d+)?([eE][+-]?\d+)?`. -/
def numCore : Bytes → Bool
  | '-' :: r => numCorePos r
  | s => numCorePos s

/-- `numberRegex`: `^\s*-?(0|[1-9]\d*)(\.\d+)?([eE][+-]?\d+)?\s*$`. -/
def numMatch (s : Bytes) : Bool := numCore (reTrim s)

/-- Body scan for `stringRegex` after the opening quote: `(\\.|[^"\\])*"`.
The alternatives have disjoint first characters, so the deterministic scan
is equivalent to the regex; `.` in Go regexp does not match a newline. -/
def reStrTail : Bytes → Bool
  | ['"'] => true
  | '\\' :: c :: r => c ≠ '\n' && reStrTail r
  | c :: r => c ≠ '"' && c ≠ '\\' && reStrTail r
  | [] => false

/-- `stringRegex`: `^\s*"(\\.|[^"\\])*"\s*$`. -/
def strMatch (s : Bytes) : Bool :=
  match reTrim s with
  | '"' :: r => reStrTail r
  | _ => false

/-- `arrayRegex` of any_jitjson.go: `^\s*\[\s*(.|\n)*\]\s*$`.  The group
`(.|\n)*` absorbs arbitrary characters, so the pattern only constrains the
first and last non-`\s` characters. -/
def anyArrMatch (s : Bytes) : Bool :=
  let t := reTrim s
  2 ≤ t.length && t.head? == some '[' && t.getLast? == some ']'

/-- `objectRegex` of any_jitjson.go: `^\s*\{\s*(.|\n)*\}\s*$`. -/
def anyObjMatch (s : Bytes) : Bool :=
  let t := reTrim s
  2 ≤ t.length && t.head? == some '{' && t.getLast? == some '}'

/-- `arrayRegex` of jitany.go: `^\s*\[.*\]\s*$` — `.` does not match `\n`,
so the interior must additionally be newline-free. -/
def jaArrMatch (s : Bytes) : Bool :=
  let t := reTrim s
  2 ≤ t.length && t.head? == some '[' && t.getLast? == some ']' &&
    !((t.drop 1).dropLast.contains '\n')

/-- `objectRegex` of jitany.go: `^\s*\{.*\}\s*$`. -/
def jaObjMatch (s : Bytes) : Bool :=
  let t := reTrim s
  2 ≤ t.length && t.head? == some '{' && t.getLast? == some '}' &&
    !((t.drop 1).dropLast.contains '\n')

/-! ### A model of the encoding/json syntax checker

`json.Unmarshal` first validates the input's JSON syntax; the fuel-indexed
parser below consumes exactly one RFC 8259 value and returns the remaining
input.  The fuel `2·|s| + 4` always suffices (each unit of fuel is spent
either consuming a bracket or stepping from a separator to an element). -/

/-- Hexadecimal digit test for `\uXXXX` escapes. -/
def isHexDigit (c : Char) : Bool :=
  c.isDigit || ('a' ≤ c && c ≤ 'f') || ('A' ≤ c && c ≤ 'F')

/-- Consume the rest of a JSON string after the opening quote.  Control
characters below 0x20 are invalid; the valid escapes are
`\" \\ \/ \b \f \n \r \t \uXXXX`. -/
def parseStrTail : Bytes → Option Bytes
  | '"' :: r => some r
  | '\\' :: e :: r =>
    if e = '"' || e = '\\' || e = '/' || e = 'b' || e = 'f' || e = 'n' || e = 'r' || e = 't' then
      parseStrTail r
    else if e = 'u' then
      match r with
      | a :: b :: c :: d :: r2 =>
        if isHexDigit a && isHexDigit b && isHexDigit c && isHexDigit d then
          parseStrTail r2
        else none
      | _ => none
    else none
  | c :: r => if c.toNat < 32 then none else parseStrTail r
  | [] => none

/-- Greedily consume an optional fraction `\.\d+`; on a malformed fraction
nothing is consumed and the caller rejects the leftover. -/
def parseFracTail (s : Bytes) : Bytes :=
  match s with
  | '.' :: r => if (r.takeWhile Char.isDigit) ≠ [] then r.dropWhile Char.isDigit else '.' :: r
  | _ => s

/-- Greedily consume an optional exponent `[eE][+-]?\d+`. -/
def parseExpTail (s : Bytes) : Bytes :=
  match s with
  | 'e' :: r =>
    let r2 := match r with
      | '+' :: r3 => r3
      | '-' :: r3 => r3
      | _ => r
    if (r2.takeWhile Char.isDigit) ≠ [] then r2.dropWhile Char.isDigit else 'e' :: r
  | 'E' :: r =>
    let r2 := match r with
      | '+' :: r3 => r3
      | '-' :: r3 => r3
      | _ => r
    if (r2.takeWhile Char.isDigit) ≠ [] then r2.dropWhile Char.isDigit else 'E' :: r
  | _ => s

/-- Consume the unsigned integer part of a number, then fraction/exponent. -/
def parseNumPos : Bytes → Option Bytes
  | c :: r =>
    if c = '0' then some (parseExpTail (parseFracTail r))
    else if c.isDigit then some (parseExpTail (parseFracTail (r.dropWhile Char.isDigit)))
    else none
  | [] => none

/-- Consume one JSON number (optional leading minus). -/
def parseNum : Bytes → Option Bytes
  | '-' :: r => parseNumPos r
  | s => parseNumPos s

mutual

/-- Consume exactly one JSON value; `none` on a syntax error or on fuel
exhaustion. -/
def parseVal : Nat → Bytes → Option Bytes
  | 0, _ => none
  | f + 1, s =>
    match s with
    | 'n' :: 'u' :: 'l' :: 'l' :: r => some r
    | 't' :: 'r' :: 'u' :: 'e' :: r => some r
    | 'f' :: 'a' :: 'l' :: 's' :: 'e' :: r => some r
    | '"' :: r => parseStrTail r
    | '[' :: r =>
      match skipJsonWs r with
      | ']' :: r2 => some r2
      | s2 => parseArrElems f s2
    | '{' :: r =>
      match skipJsonWs r with
      | '}' :: r2 => some r2
      | s2 => parseObjElems f s2
    | _ => parseNum s

/-- Consume the elements of a non-empty array body up to and including the
closing bracket; the input is positioned at an element. -/
def parseArrElems : Nat → Bytes → Option Bytes
  | 0, _ => none
  | f + 1, s =>
    match parseVal f s with
    | none => none
    | some r =>
      match skipJsonWs r with
      | ']' :: r2 => some r2
      | ',' :: r2 => parseArrElems f (skipJsonWs r2)
      | _ => none

/-- Consume the members of a non-empty object body up to and including the
closing brace; the input is positioned at a key. -/
def parseObjElems : Nat → Bytes → Option Bytes
  | 0, _ => none
  | f + 1, s =>
    match s with
    | '"' :: ks =>
      match parseStrTail ks with
      | none => none
      | some r =>
        match skipJsonWs r with
        | ':' :: r2 =>
          match parseVal f (skipJsonWs r2) with
          | none => none
          | some r3 =>
            match skipJsonWs r3 with
            | '}' :: r4 => some r4
            | ',' :: r4 => parseObjElems f (skipJsonWs r4)
            | _ => none
        | _ => none
    | _ => none

end

/-- Standard fuel: always enough for an input of this length. -/
def fuelFor (s : Bytes) : Nat := 2 * s.length + 4

/-- Model of encoding/json's whole-input validity check: one value,
surrounded only by JSON whitespace. -/
def validTop (s : Bytes) : Bool :=
  match parseVal (fuelFor s) (skipJsonWs s) with
  | some rest => (skipJsonWs rest).isEmpty
  | none => false

end JitJSONModel

namespace JitJSONModel

/-! ### Element spans and string decoding

`json.Unmarshal(data, &arr)` hands each element's exact byte span to the
element's `UnmarshalJSON`; the splitters below reproduce that, using the
syntax parser to delimit spans. -/

/-- Split the elements of a non-empty array body (input positioned at the
first element); returns the element spans and the input after `]`. -/
def splitArrElems : Nat → Bytes → Option (List Bytes × Bytes)
  | 0, _ => none
  | f + 1, s =>
    match parseVal f s with
    | none => none
    | some r =>
      let sp := s.take (s.length - r.length)
      match skipJsonWs r with
      | ']' :: r2 => some ([sp], r2)
      | ',' :: r2 =>
        match splitArrElems f (skipJsonWs r2) with
        | none => none
        | some (sps, rest) => some (sp :: sps, rest)
      | _ => none

/-- Split a whole input as a JSON array (as `json.Unmarshal` into a slice
does): leading whitespace, `[`, elements, `]`, trailing whitespace only. -/
def splitTopArray (d : Bytes) : Option (List Bytes) :=
  match skipJsonWs d with
  | '[' :: r =>
    match skipJsonWs r with
    | ']' :: r2 => if (skipJsonWs r2).isEmpty then some [] else none
    | s2 =>
      match splitArrElems (fuelFor d) s2 with
      | none => none
      | some (sps, rest) => if (skipJsonWs rest).isEmpty then some sps else none
  | _ => none

/-- Split the members of a non-empty object body (input positioned at a
key); returns (key span including quotes, value span) pairs and the input
after `}`. -/
def splitObjEntries : Nat → Bytes → Option (List (Bytes × Bytes) × Bytes)
  | 0, _ => none
  | f + 1, s =>
    match s with
    | '"' :: ks =>
      match parseStrTail ks with
      | none => none
      | some r =>
        let ksp := ('"' :: ks).take (('"' :: ks).length - r.length)
        match skipJsonWs r with
        | ':' :: r2 =>
          let s3 := skipJsonWs r2
          match parseVal f s3 with
          | none => none
          | some r3 =>
            let vsp := s3.take (s3.length - r3.length)
            match skipJsonWs r3 with
            | '}' :: r4 => some ([(ksp, vsp)], r4)
            | ',' :: r4 =>
              match splitObjEntries f (skipJsonWs r4) with
              | none => none
              | some (es, rest) => some ((ksp, vsp) :: es, rest)
            | _ => none
        | _ => none
    | _ => none

/-- Split a whole input as a JSON object (as `json.Unmarshal` into a map
does). -/
def splitTopObject (d : Bytes) : Option (List (Bytes × Bytes)) :=
  match skipJsonWs d with
  | '{' :: r =>
    match skipJsonWs r with
    | '}' :: r2 => if (skipJsonWs r2).isEmpty then some [] else none
    | s2 =>
      match splitObjEntries (fuelFor d) s2 with
      | none => none
      | some (es, rest) => if (skipJsonWs rest).isEmpty then some es else none
  | _ => none

/-- Value of a hexadecimal digit. -/
def hexVal (c : Char) : Nat :=
  if c.isDigit then c.toNat - 48
  else if 'a' ≤ c && c ≤ 'f' then c.toNat - 87
  else c.toNat - 55

/-- Decode the body of a JSON string after the opening quote, expecting the
closing quote to end the input.  `\uXXXX` is mapped through `Char.ofNat`
(surrogate-pair recombination, which the external decoder performs, is not
modelled; no theorem below feeds surrogate escapes). -/
def unescapeStrTail : Bytes → Option (List Char)
  | '"' :: [] => some []
  | '"' :: _ :: _ => none
  | '\\' :: e :: r =>
    if e = '"' || e = '\\' || e = '/' then
      (unescapeStrTail r).map (e :: ·)
    else if e = 'b' then (unescapeStrTail r).map ('\x08' :: ·)
    else if e = 'f' then (unescapeStrTail r).map ('\x0c' :: ·)
    else if e = 'n' then (unescapeStrTail r).map ('\n' :: ·)
    else if e = 'r' then (unescapeStrTail r).map ('\r' :: ·)
    else if e = 't' then (unescapeStrTail r).map ('\t' :: ·)
    else if e = 'u' then
      match r with
      | a :: b :: c :: d :: r2 =>
        if isHexDigit a && isHexDigit b && isHexDigit c && isHexDigit d then
          (unescapeStrTail r2).map
            (Char.ofNat (((hexVal a * 16 + hexVal b) * 16 + hexVal c) * 16 + hexVal d) :: ·)
        else none
      | _ => none
    else none
  | c :: r => if c.toNat < 32 then none else (unescapeStrTail r).map (c :: ·)
  | [] => none

/-- Decode a full JSON string literal (with quotes). -/
def jsonStringDecode (s : Bytes) : Option (List Char) :=
  match s with
  | '"' :: r => unescapeStrTail r
  | _ => none

/-- Decoder error reported by encoding/json on a type mismatch for string. -/
def strDecodeErr : String := "json: cannot unmarshal value into Go value of type string"

/-- Decoder error reported by encoding/json on a bad json.Number. -/
def numDecodeErr : String := "json: invalid number literal"

/-- Minimal JSON string escaping used by the external encoder model. -/
def escapeChar (c : Char) : List Char :=
  if c = '"' then ['\\', '"']
  else if c = '\\' then ['\\', '\\']
  else if c = '\n' then ['\\', 'n']
  else if c = '\r' then ['\\', 'r']
  else if c = '\t' then ['\\', 't']
  else [c]

/-- Model of the external encoding/json codec at type `string`. -/
def goStrCodec : Codec (List Char) where
  encode s := .ok ('"' :: (s.flatMap escapeChar) ++ ['"'])
  decode bs :=
    let t := jsonTrim bs
    match jsonStringDecode t with
    | some s => .ok s
    | none => .error strDecodeErr
  zero := []

/-- Model of the external encoding/json codec at type `json.Number`: the
decoded value is the validated literal itself (its zero value is the empty
string). -/
def goNumCodec : Codec Bytes where
  encode t := .ok t
  decode bs :=
    let t := jsonTrim bs
    if numCore t then .ok t else .error numDecodeErr
  zero := []

end JitJSONModel

namespace JitJSONModel

/-- The `ValueType` enumeration of any_jitjson.go. -/
inductive ValueType where
  | TypeNull
  | TypeBool
  | TypeNumber
  | TypeString
  | TypeArray
  | TypeObject
  | TypeInvalid
deriving DecidableEq, Repr

/-- The dynamic payload stored in `AnyJitJSON.val` (Go `interface{}`).
Successful classification only ever stores a scalar cell or the empty
placeholder slice/map for containers; `vother` stands for any other
dynamically-typed payload (reachable only by direct struct construction). -/
inductive AnyVal where
  | vbool (cell : JitJSON Bool)
  | vnumber (cell : JitJSON Bytes)
  | vstring (cell : JitJSON (List Char))
  | varr
  | vobj
  | vother
deriving DecidableEq, Repr

/-- The `AnyJitJSON` struct of any_jitjson.go: `val interface{}` and
`data []byte`. -/
structure AnyJitJSON where
  val : Option AnyVal
  data : Option Bytes
deriving DecidableEq, Repr

/-- `Type` of any_jitjson.go (`typeOf` here, since `Type` is reserved):
nil receiver or nil `val` report `TypeNull`; otherwise the tag follows the
dynamic type of `val`, with `TypeInvalid` as the default case. -/
def typeOf : Option AnyJitJSON → ValueType
  | none => .TypeNull
  | some a =>
    match a.val with
    | none => .TypeNull
    | some (.vbool _) => .TypeBool
    | some (.vnumber _) => .TypeNumber
    | some (.vstring _) => .TypeString
    | some .varr => .TypeArray
    | some .vobj => .TypeObject
    | some .vother => .TypeInvalid

/-- `IsNull` of any_jitjson.go: true iff `Type()` is `TypeNull`. -/
def IsNull (a : Option AnyJitJSON) : Bool := typeOf a == .TypeNull

/-- `UnmarshalJSON` of any_jitjson.go.  It first stores `val = nil;
data = data`, then tries the six shapes in order null, boolean, number,
string, array, object.  A scalar branch fires when its regex matches *and*
`json.Unmarshal(data, &cell)` succeeds — the latter only checks whole-input
JSON syntax, the scalar cell's own decode hook always succeeds and stores
the trimmed literal.  Container branches only test the regex, store the
empty placeholder and copy the raw data.  If no branch fires, an
"invalid json" error is returned (with the receiver's fields already
overwritten). -/
def anyUnmarshalJSON (data : Bytes) : Option String × AnyJitJSON :=
  if nullMatch data then (none, ⟨none, some data⟩)
  else if boolMatch data && validTop data then
    (none, ⟨some (.vbool ⟨some (jsonTrim data), none⟩), some data⟩)
  else if numMatch data && validTop data then
    (none, ⟨some (.vnumber ⟨some (jsonTrim data), none⟩), some data⟩)
  else if strMatch data && validTop data then
    (none, ⟨some (.vstring ⟨some (jsonTrim data), none⟩), some data⟩)
  else if anyArrMatch data then (none, ⟨some .varr, some data⟩)
  else if anyObjMatch data then (none, ⟨some .vobj, some data⟩)
  else (some "invalid json", ⟨none, some data⟩)

/-- Build one child `*AnyJitJSON` from its element span, as
`json.Unmarshal` into a `[]*AnyJitJSON` / `map[string]*AnyJitJSON` does:
the literal `null` leaves a nil pointer, any other span is handed to the
child's `UnmarshalJSON`, whose error aborts the whole decode. -/
def buildChild (sp : Bytes) : Option (Option AnyJitJSON) :=
  if sp = "null".toList then some none
  else
    match anyUnmarshalJSON sp with
    | (none, st) => some (some st)
    | (some _, _) => none

/-- `json.Unmarshal(data, &arr)` for `arr []*AnyJitJSON`. -/
def decodeAnyArray (d : Bytes) : Option (List (Option AnyJitJSON)) :=
  match splitTopArray d with
  | none => none
  | some sps => sps.mapM buildChild

/-- `json.Unmarshal(data, &obj)` for `obj map[string]*AnyJitJSON`,
modelled as an association list in input order. -/
def decodeAnyObject (d : Bytes) : Option (List (List Char × Option AnyJitJSON)) :=
  match splitTopObject d with
  | none => none
  | some es =>
    es.mapM fun kv => do
      let k ← jsonStringDecode kv.1
      let ch ← buildChild kv.2
      pure (k, ch)

/-- `AsBool` of any_jitjson.go: type-assert `val` to the bool cell; on a
match run the (shared, hence cached) cell's `Unmarshal`, discard its error
and report ok. -/
def AsBool (a : AnyJitJSON) : Bool × Bool × AnyJitJSON :=
  match a.val with
  | some (.vbool cell) =>
    let u := Unmarshal goBoolCodec cell
    (u.value, true, { a with val := some (.vbool u.cell) })
  | _ => (false, false, a)

/-- `AsNumber` of any_jitjson.go. -/
def AsNumber (a : AnyJitJSON) : Bytes × Bool × AnyJitJSON :=
  match a.val with
  | some (.vnumber cell) =>
    let u := Unmarshal goNumCodec cell
    (u.value, true, { a with val := some (.vnumber u.cell) })
  | _ => ([], false, a)

/-- `AsString` of any_jitjson.go. -/
def AsString (a : AnyJitJSON) : List Char × Bool × AnyJitJSON :=
  match a.val with
  | some (.vstring cell) =>
    let u := Unmarshal goStrCodec cell
    (u.value, true, { a with val := some (.vstring u.cell) })
  | _ => ([], false, a)

/-- `AsArray` of any_jitjson.go: fail if `data` is nil or `val` is not the
array placeholder; otherwise `json.Unmarshal(a.data, &arr)`, and on success
set `a.data = nil` and return the children (which are not stored back). -/
def AsArray (a : AnyJitJSON) : Option (List (Option AnyJitJSON)) × Bool × AnyJitJSON :=
  match a.data with
  | none => (none, false, a)
  | some d =>
    match a.val with
    | some .varr =>
      match decodeAnyArray d with
      | some arr => (some arr, true, { a with data := none })
      | none => (none, false, a)
    | _ => (none, false, a)

/-- `AsObject` of any_jitjson.go: same shape as `AsArray` for the object
placeholder. -/
def AsObject (a : AnyJitJSON) :
    Option (List (List Char × Option AnyJitJSON)) × Bool × AnyJitJSON :=
  match a.data with
  | none => (none, false, a)
  | some d =>
    match a.val with
    | some .vobj =>
      match decodeAnyObject d with
      | some obj => (some obj, true, { a with data := none })
      | none => (none, false, a)
    | _ => (none, false, a)

end JitJSONModel

namespace JitJSONModel

/-- Dynamic value of the older jitany.go variant.  Containers there hold
`AnyJitJSON` values (not pointers), each of which is just its `v` field,
hence `Option JV`: classification of the literal `null` stores a nil `v`. -/
inductive JV where
  | jbool (cell : JitJSON Bool)
  | jnum (cell : JitJSON Bytes)
  | jstr (cell : JitJSON (List Char))
  | jarr (elems : List (Option JV))
  | jobj (entries : List (List Char × Option JV))

mutual

/-- `UnmarshalJSON` of jitany.go, fuel-indexed for the recursion into
container children.  The scalar branches are those of any_jitjson.go; the
container branches run the *full* `json.Unmarshal` into `[]AnyJitJSON` /
`map[string]AnyJitJSON`, so a container only classifies when the whole
input is syntactically valid JSON and every child classifies; otherwise the
branch falls through and `invalidJsonErr` is returned. -/
def jitanyClassify : Nat → Bytes → Except String (Option JV)
  | 0, _ => .error "invalid json"
  | f + 1, data =>
    if nullMatch data then .ok none
    else if boolMatch data && validTop data then
      .ok (some (.jbool ⟨some (jsonTrim data), none⟩))
    else if numMatch data && validTop data then
      .ok (some (.jnum ⟨some (jsonTrim data), none⟩))
    else if strMatch data && validTop data then
      .ok (some (.jstr ⟨some (jsonTrim data), none⟩))
    else
      match
        if jaArrMatch data then
          match splitTopArray data with
          | none => none
          | some sps => jitanyClassifyList f sps
        else none
      with
      | some elems => .ok (some (.jarr elems))
      | none =>
        match
          if jaObjMatch data then
            match splitTopObject data with
            | none => none
            | some es =>
              match jitanyClassifyList f (es.map Prod.snd) with
              | none => none
              | some vs =>
                match (es.map Prod.fst).mapM jsonStringDecode with
                | none => none
                | some ks => some (ks.zip vs)
          else none
        with
        | some es => .ok (some (.jobj es))
        | none => .error "invalid json"

/-- Classify a list of child spans (fuel-indexed); any child error aborts. -/
def jitanyClassifyList : Nat → List Bytes → Option (List (Option JV))
  | _, [] => some []
  | 0, _ :: _ => none
  | f + 1, sp :: sps =>
    match jitanyClassify f sp with
    | .error _ => none
    | .ok v =>
      match jitanyClassifyList f sps with
      | none => none
      | some vs => some (v :: vs)

end

/-- `UnmarshalJSON` of jitany.go at the standard fuel. -/
def jitanyUnmarshalJSON (s : Bytes) : Except String (Option JV) :=
  jitanyClassify (fuelFor s) s

/-- True iff the jitany.go classifier rejects the input. -/
def jitanyRejects (s : Bytes) : Bool :=
  match jitanyUnmarshalJSON s with
  | .error _ => true
  | .ok _ => false

/-- The shape tag of a classified jitany.go value. -/
def jvType : Option JV → ValueType
  | none => .TypeNull
  | some (.jbool _) => .TypeBool
  | some (.jnum _) => .TypeNumber
  | some (.jstr _) => .TypeString
  | some (.jarr _) => .TypeArray
  | some (.jobj _) => .TypeObject

end JitJSONModel

namespace JitJSONModel

/-- C6: dynamic classification diverges between the two variants on
container inputs.  any_jitjson.go's `UnmarshalJSON` accepts the unbalanced
input `[[1,2]` and the trailing-garbage input `[1,2]]` with a nil error
(classifying both as arrays), because its container branches only test the
outer-bracket regex; the jitany.go classifier, which funnels containers
through the full `json.Unmarshal`, rejects both.  Both variants reject
empty input, whitespace-only input, an unterminated string, trailing
garbage after a literal, a number with two decimal points and an unclosed
bracket, and both tolerate surrounding whitespace with the documented
null, boolean, number, string, array, object precedence. -/
theorem c6_container_classification_divergence :
    ((anyUnmarshalJSON ("[[1,2]".toList)).1 = none ∧
     typeOf (some (anyUnmarshalJSON ("[[1,2]".toList)).2) = .TypeArray ∧
     (anyUnmarshalJSON ("[1,2]]".toList)).1 = none ∧
     typeOf (some (anyUnmarshalJSON ("[1,2]]".toList)).2) = .TypeArray) ∧
    (jitanyRejects ("[[1,2]".toList) = true ∧
     jitanyRejects ("[1,2]]".toList) = true) ∧
    ((anyUnmarshalJSON ("".toList)).1.isSome = true ∧
     jitanyRejects ("".toList) = true ∧
     (anyUnmarshalJSON ("   ".toList)).1.isSome = true ∧
     jitanyRejects ("   ".toList) = true ∧
     (anyUnmarshalJSON ("\"abc".toList)).1.isSome = true ∧
     jitanyRejects ("\"abc".toList) = true ∧
     (anyUnmarshalJSON ("true x".toList)).1.isSome = true ∧
     jitanyRejects ("true x".toList) = true ∧
     (anyUnmarshalJSON ("1.2.3".toList)).1.isSome = true ∧
     jitanyRejects ("1.2.3".toList) = true ∧
     (anyUnmarshalJSON ("[1,2".toList)).1.isSome = true ∧
     jitanyRejects ("[1,2".toList) = true) ∧
    (typeOf (some (anyUnmarshalJSON ("  null ".toList)).2) = .TypeNull ∧
     typeOf (some (anyUnmarshalJSON ("  true ".toList)).2) = .TypeBool ∧
     typeOf (some (anyUnmarshalJSON (" -1.5e3 ".toList)).2) = .TypeNumber ∧
     typeOf (some (anyUnmarshalJSON (" \"hi\" ".toList)).2) = .TypeString ∧
     typeOf (some (anyUnmarshalJSON (" [1,2] ".toList)).2) = .TypeArray ∧
     jitanyRejects (" [1,2] ".toList) = false ∧
     jvType ((jitanyUnmarshalJSON (" [1,2] ".toList)).toOption.getD none) = .TypeArray) := by
  decide

/-- C7: after successful classification of `[1,2]`, the first `AsArray`
call matches and returns the two number children, but — the call having set
`data` to nil — the second call on the same value returns `(nil, false)`
although the shape tag still matches.  Scalar accessors by contrast succeed
on every call (the cell's decode is cached), and accessors of
non-matching shape report `ok = false` with an absent result. -/
theorem c7_matching_accessor_succeeds_only_first_time :
    ((anyUnmarshalJSON ("[1,2]".toList)).1 = none ∧
     typeOf (some (anyUnmarshalJSON ("[1,2]".toList)).2) = .TypeArray) ∧
    ((AsArray (anyUnmarshalJSON ("[1,2]".toList)).2).2.1 = true ∧
     ((AsArray (anyUnmarshalJSON ("[1,2]".toList)).2).1.getD []).map typeOf =
       [.TypeNumber, .TypeNumber]) ∧
    (typeOf (some (AsArray (anyUnmarshalJSON ("[1,2]".toList)).2).2.2) = .TypeArray ∧
     (AsArray (anyUnmarshalJSON ("[1,2]".toList)).2).2.2.data = none ∧
     (AsArray (AsArray (anyUnmarshalJSON ("[1,2]".toList)).2).2.2).2.1 = false ∧
     (AsArray (AsArray (anyUnmarshalJSON ("[1,2]".toList)).2).2.2).1 = none) ∧
    ((AsBool (anyUnmarshalJSON ("true".toList)).2).1 = true ∧
     (AsBool (anyUnmarshalJSON ("true".toList)).2).2.1 = true ∧
     (AsBool (AsBool (anyUnmarshalJSON ("true".toList)).2).2.2).2.1 = true ∧
     (AsBool (AsBool (anyUnmarshalJSON ("true".toList)).2).2.2).1 = true) ∧
    ((AsBool (anyUnmarshalJSON ("[1,2]".toList)).2).2.1 = false ∧
     (AsArray (anyUnmarshalJSON ("true".toList)).2).2.1 = false) := by
  decide

/-- The accessor methods of any_jitjson.go, as state transformers. -/
inductive Accessor where
  | asBool
  | asNumber
  | asString
  | asArray
  | asObject
  | isNull
deriving DecidableEq, Repr

/-- State effect of one accessor call. -/
def applyAcc : Accessor → AnyJitJSON → AnyJitJSON
  | .asBool, a => (AsBool a).2.2
  | .asNumber, a => (AsNumber a).2.2
  | .asString, a => (AsString a).2.2
  | .asArray, a => (AsArray a).2.2
  | .asObject, a => (AsObject a).2.2
  | .isNull, a => a

/-- State effect of a sequence of accessor calls. -/
def applyAccs (ops : List Accessor) (a : AnyJitJSON) : AnyJitJSON :=
  ops.foldl (fun x op => applyAcc op x) a

/-- No accessor call changes the shape tag. -/
theorem typeOf_applyAcc (op : Accessor) (a : AnyJitJSON) :
    typeOf (some (applyAcc op a)) = typeOf (some a) := by
  obtain ⟨val, data⟩ := a
  cases op <;> cases data <;>
    rcases val with _ | (⟨c⟩ | ⟨c⟩ | ⟨c⟩ | _ | _ | _) <;>
      simp only [applyAcc, AsBool, AsNumber, AsString, AsArray, AsObject] <;>
      (try split) <;> rfl

/-- No sequence of accessor calls changes the shape tag. -/
theorem typeOf_applyAccs (ops : List Accessor) (a : AnyJitJSON) :
    typeOf (some (applyAccs ops a)) = typeOf (some a) := by
  induction ops generalizing a with
  | nil => rfl
  | cons op ops ih =>
    calc typeOf (some (applyAccs (op :: ops) a))
        = typeOf (some (applyAccs ops (applyAcc op a))) := rfl
      _ = typeOf (some (applyAcc op a)) := ih _
      _ = typeOf (some a) := typeOf_applyAcc op a

/-- Classification never stores a payload outside the six shapes. -/
theorem typeOf_anyUnmarshalJSON_ne_invalid (data : Bytes) :
    typeOf (some (anyUnmarshalJSON data).2) ≠ .TypeInvalid := by
  unfold anyUnmarshalJSON
  split_ifs <;> simp [typeOf]

/-- Classification yields one of the six tags. -/
theorem typeOf_anyUnmarshalJSON_cases (data : Bytes) :
    typeOf (some (anyUnmarshalJSON data).2) = .TypeNull ∨
    typeOf (some (anyUnmarshalJSON data).2) = .TypeBool ∨
    typeOf (some (anyUnmarshalJSON data).2) = .TypeNumber ∨
    typeOf (some (anyUnmarshalJSON data).2) = .TypeString ∨
    typeOf (some (anyUnmarshalJSON data).2) = .TypeArray ∨
    typeOf (some (anyUnmarshalJSON data).2) = .TypeObject := by
  unfold anyUnmarshalJSON
  split_ifs <;> simp [typeOf]

/-- C10: after a nil-error classification, `Type()` reports one of the six
shape tags and never `TypeInvalid`, and the tag is unchanged by any
subsequent sequence of accessor calls. -/
theorem c10_classified_tag_valid_and_stable (data : Bytes)
    (_h : (anyUnmarshalJSON data).1 = none) :
    (typeOf (some (anyUnmarshalJSON data).2) = .TypeNull ∨
     typeOf (some (anyUnmarshalJSON data).2) = .TypeBool ∨
     typeOf (some (anyUnmarshalJSON data).2) = .TypeNumber ∨
     typeOf (some (anyUnmarshalJSON data).2) = .TypeString ∨
     typeOf (some (anyUnmarshalJSON data).2) = .TypeArray ∨
     typeOf (some (anyUnmarshalJSON data).2) = .TypeObject) ∧
    typeOf (some (anyUnmarshalJSON data).2) ≠ .TypeInvalid ∧
    ∀ ops : List Accessor,
      typeOf (some (applyAccs ops (anyUnmarshalJSON data).2)) =
        typeOf (some (anyUnmarshalJSON data).2) :=
  ⟨typeOf_anyUnmarshalJSON_cases data, typeOf_anyUnmarshalJSON_ne_invalid data,
   fun ops => typeOf_applyAccs ops _⟩

/-- C10 (witness): the tag stability at the concrete input `true` under
the accessor sequence AsArray, AsBool. -/
theorem c10_witness :
    (anyUnmarshalJSON ("true".toList)).1 = none ∧
    typeOf (some (anyUnmarshalJSON ("true".toList)).2) ≠ .TypeInvalid ∧
    typeOf (some (applyAccs [.asArray, .asBool] (anyUnmarshalJSON ("true".toList)).2)) =
      typeOf (some (anyUnmarshalJSON ("true".toList)).2) :=
  ⟨by decide,
   (c10_classified_tag_valid_and_stable ("true".toList) (by decide)).2.1,
   (c10_classified_tag_valid_and_stable ("true".toList) (by decide)).2.2
     [.asArray, .asBool]⟩

end JitJSONModel
